import Mathlib

/-!
# Verification of the MMO Deck stateful hotkey action engine

A shallow embedding of the window-tiling cycle, debounce clock, tap/hold
refresh gesture, auto-repeat suppression and repeat scheduler of `main.py`,
together with proofs of the specified properties.

Modelling conventions:
* Pixel coordinates are `ℤ`; a rectangle is `(left, top, right, bottom)`
  as in the Win32 RECT tuples the program uses.
* The width/height ratio literals of the source (`0.5040`, `0.3372`,
  `0.6707`) are exact four-digit decimals; they are embedded as integer
  numerator/denominator pairs so Python's `round` (round half to even)
  becomes exact integer arithmetic.
* Wall-clock times (`time.time()`) are modelled as exact rationals `ℚ`.
-/

namespace MMODeck

/-- A pixel rectangle `(left, top, right, bottom)`, as in the Win32 RECT
tuples used throughout `main.py`. -/
structure Rect where
  l : ℤ
  t : ℤ
  r : ℤ
  b : ℤ
deriving DecidableEq, Repr

/-- Default rectangle (placeholder used for out-of-range list reads, which
never occur on the program's fixed nonempty ratio list). -/
def dRect : Rect := ⟨0, 0, 0, 0⟩

/-- An exact decimal ratio `num / den`, `den > 0`; embeds the float
literals of `WINDOW_WIDTHS` in `main.py` exactly. -/
structure Frac where
  num : ℤ
  den : ℤ
deriving DecidableEq, Repr

/-- `WINDOW_WIDTHS = [0.5040, 0.3372, 0.6707]` from `main.py`. -/
def WINDOW_WIDTHS : List Frac := [⟨5040, 10000⟩, ⟨3372, 10000⟩, ⟨6707, 10000⟩]

/-- `WINDOW_POS_TOL_PX = 2` from `main.py`. -/
def WINDOW_POS_TOL_PX : ℤ := 2

/-- `WINDOW_CYCLE_DEBOUNCE_SEC = 0.10` from `main.py`. -/
def WINDOW_CYCLE_DEBOUNCE_SEC : ℚ := 1/10

/-- `REFRESH_HOLD_THRESHOLD_SEC = 0.40` from `main.py`. -/
def REFRESH_HOLD_THRESHOLD_SEC : ℚ := 2/5

/-- Round half to even (Python's builtin `round`) of the rational `n / d`,
for `d > 0`, in exact integer arithmetic.  `n / d` below is mathematical
floor division (Lean's `Int` division is Euclidean and `d > 0`). -/
def roundHalfEven (n d : ℤ) : ℤ :=
  let f := n / d
  let rem := n - f * d
  if 2 * rem < d then f
  else if d < 2 * rem then f + 1
  else if f % 2 = 0 then f else f + 1

/-- `int(round(w * ratio))` from `main.py`, for an exact decimal ratio. -/
def roundScaled (w : ℤ) (ratio : Frac) : ℤ :=
  roundHalfEven (w * ratio.num) ratio.den

/-- `_rect_close(a, b, tol)` from `main.py`:
`all(abs(a[i] - b[i]) <= tol for i in range(4))`. -/
def rectClose (x y : Rect) (tol : ℤ) : Bool :=
  decide (|x.l - y.l| ≤ tol ∧ |x.t - y.t| ≤ tol ∧ |x.r - y.r| ≤ tol ∧ |x.b - y.b| ≤ tol)

/-- The `side` argument of `_make_target_rect` (`"left"` / `"right"`). -/
inductive Side where
  | left
  | right
deriving DecidableEq, Repr

/-- The `anchor` argument of `_make_vertical_target_rects`
(`"top"` / `"bottom"`). -/
inductive Anchor where
  | top
  | bottom
deriving DecidableEq, Repr

/-- `_make_target_rect(work_area, width_ratio, side)` from `main.py`. -/
def makeTargetRect (workArea : Rect) (widthRatio : Frac) (side : Side) : Rect :=
  let workW := workArea.r - workArea.l
  let workH := workArea.b - workArea.t
  let targetW := roundScaled workW widthRatio
  let t := workArea.t
  let b := workArea.t + workH
  match side with
  | Side.left => { l := workArea.l, t := t, r := workArea.l + targetW, b := b }
  | Side.right => { l := workArea.r - targetW, t := t, r := workArea.r, b := b }

/-- `_clamp_width_to_work_area(rect, work_area)` from `main.py`. -/
def clampWidthToWorkArea (rect workArea : Rect) : Rect :=
  let width := rect.r - rect.l
  let maxWidth := workArea.r - workArea.l
  let width2 := if width > maxWidth then maxWidth else width
  let l2 := max workArea.l rect.l
  let l3 := if l2 + width2 > workArea.r then workArea.r - width2 else l2
  { l := l3, t := rect.t, r := l3 + width2, b := rect.b }

/-- The loop body of `_make_vertical_target_rects` in `main.py`: one target
rectangle for one height ratio, given the clamped current rectangle `c`
(`h = min(int(round(work_h * hr)), work_h)`, anchored top or bottom,
horizontal span taken from `c`). -/
def verticalTarget (workArea : Rect) (anchor : Anchor) (c : Rect) (hr : Frac) : Rect :=
  let workH := workArea.b - workArea.t
  let h := min (roundScaled workH hr) workH
  match anchor with
  | Anchor.top => { l := c.l, t := workArea.t, r := c.r, b := workArea.t + h }
  | Anchor.bottom => { l := c.l, t := workArea.b - h, r := c.r, b := workArea.b }

/-- `_make_vertical_target_rects(work_area, height_ratios, anchor, current_rect)`
from `main.py`. -/
def makeVerticalTargetRects (workArea : Rect) (heightRatios : List Frac)
    (anchor : Anchor) (currentRect : Rect) : List Rect :=
  let c := clampWidthToWorkArea currentRect workArea
  heightRatios.map (verticalTarget workArea anchor c)

/-- The candidate-selection loop shared by `_cycle_widths` and
`_cycle_heights` in `main.py`:

```
next_rect = targets[0]
for i, tr in enumerate(targets):
    if _rect_close(current, tr):
        next_rect = targets[(i + 1) % len(targets)]
        break
```

`all` is the full target list, the last argument the enumeration index. -/
def scanLoop (all : List Rect) (current : Rect) : List Rect → ℕ → Rect
  | [], _ => all.getD 0 dRect
  | tr :: rest, i =>
    if rectClose current tr WINDOW_POS_TOL_PX then all.getD ((i + 1) % all.length) dRect
    else scanLoop all current rest (i + 1)

/-- The next rectangle the cycle applies, given candidate list and current
window rectangle (the scan loop of `main.py` started at index 0). -/
def scanNext (targets : List Rect) (current : Rect) : Rect :=
  scanLoop targets current targets 0

/-- Index of the first candidate the current rectangle is close to.
Written from the spec's words ("Scan the list in order; if the window's
current rectangle is close (tolerance) to candidate i, ..."), to be
compared with the source-derived `scanNext`. -/
def firstMatchIdx (current : Rect) : List Rect → Option ℕ
  | [] => none
  | tr :: rest =>
    if rectClose current tr WINDOW_POS_TOL_PX then some 0
    else (firstMatchIdx current rest).map (· + 1)

/-- Target selection as the spec describes it: first matching candidate `i`
yields candidate `(i+1) % N`; no match yields candidate 0. -/
def scanSpec (targets : List Rect) (current : Rect) : Rect :=
  match firstMatchIdx current targets with
  | some i => targets.getD ((i + 1) % targets.length) dRect
  | none => targets.getD 0 dRect

/-- The OS-visible state of one top-level window: shell-class restriction
(`_is_ignorable_window`), maximized flag (`GetWindowPlacement`), rectangle
(`GetWindowRect`; for a maximized window this is the rectangle the window
takes after `ShowWindow(SW_RESTORE)`), and the monitor work area
(`_get_monitor_work_area_for_window`). -/
structure Window where
  restricted : Bool
  maximized : Bool
  rect : Rect
  workArea : Rect
deriving DecidableEq, Repr

/-- The process-wide state the tiling-cycle handlers touch: the global
debounce timestamp `_last_trigger` and the foreground window (if any). -/
structure TilingWorld where
  lastTrigger : ℚ
  fg : Option Window

/-- The candidate list `[_make_target_rect(work_area, w, side) for w in WINDOW_WIDTHS]`
of `_cycle_widths`. -/
def widthTargets (workArea : Rect) (side : Side) : List Rect :=
  WINDOW_WIDTHS.map (fun w => makeTargetRect workArea w side)

/-- The window-transforming part of `_cycle_widths` in `main.py` (after
debounce and foreground resolution): maximized windows are restored and
set directly to `targets[0]`; otherwise the scan loop picks the target. -/
def cycleWidthsWindow (side : Side) (win : Window) : Window :=
  let targets := widthTargets win.workArea side
  if win.maximized then
    { win with maximized := false, rect := targets.getD 0 dRect }
  else
    { win with rect := scanNext targets win.rect }

/-- The window-transforming part of `_cycle_heights` in `main.py` (after
debounce and foreground resolution): a maximized window is restored and its
post-restore rectangle is used as `current`; in both branches the scan loop
then picks the target among `_make_vertical_target_rects`. -/
def cycleHeightsWindow (anchor : Anchor) (win : Window) : Window :=
  let current := win.rect
  let targets := makeVerticalTargetRects win.workArea WINDOW_WIDTHS anchor current
  { win with maximized := false, rect := scanNext targets current }

/-- The four tiling-cycle hotkey directions (F13, F15, Shift+F15, Shift+F13). -/
inductive Dir where
  | left
  | right
  | top
  | bottom
deriving DecidableEq, Repr

/-- A tiling-cycle invocation after the debounce check has passed:
resolve the foreground window, silently no-op when there is none or it is
a restricted shell class, otherwise run the cycle for the direction. -/
def acceptedStep (d : Dir) (w : TilingWorld) : TilingWorld :=
  match w.fg with
  | none => w
  | some win =>
    if win.restricted then w
    else
      let win2 :=
        match d with
        | Dir.left => cycleWidthsWindow Side.left win
        | Dir.right => cycleWidthsWindow Side.right win
        | Dir.top => cycleHeightsWindow Anchor.top win
        | Dir.bottom => cycleHeightsWindow Anchor.bottom win
      { w with fg := some win2 }

/-- A tiling-cycle invocation at wall-clock time `now`: `_debounced()`
(drop if `now - _last_trigger < WINDOW_CYCLE_DEBOUNCE_SEC`, else record
`now` as the last accepted trigger) followed by the cycle body. -/
def cycleStep (d : Dir) (now : ℚ) (w : TilingWorld) : TilingWorld :=
  if now - w.lastTrigger < WINDOW_CYCLE_DEBOUNCE_SEC then w
  else acceptedStep d { w with lastTrigger := now }

/-! ## Tap/hold refresh gesture (`_refresh_press` / `_refresh_release`) -/

/-- The two refresh outcomes: `_refresh_tap()` and `_refresh_hold()`. -/
inductive RAct where
  | tap
  | hold
deriving DecidableEq, Repr

/-- The `_refresh_state` dict of `main.py`: the `"active"` and `"hold"`
entries, plus whether the one-shot hold `threading.Timer` is still armed
(armed on press, disarmed when it fires or is cancelled on release). -/
structure RState where
  active : Bool
  hold : Bool
  timerArmed : Bool
deriving DecidableEq, Repr

/-- Events delivered to the refresh gesture: a press notification, the
hold-threshold timer firing, and a release notification. -/
inductive REvent where
  | press
  | timerFire
  | release
deriving DecidableEq, Repr

/-- One step of the refresh state machine, returning the new state and the
refresh action fired by the step (if any).

* press (`_refresh_press`): no-op while `"active"`, otherwise reset state
  to `{"active": True, "hold": False}` and arm the hold timer;
* timer (`_hold_action`): if still `"active"`, mark `"hold"` and fire the
  hold action;
* release (`_refresh_release`): cancel the timer, fire the tap action iff
  `"active"` and not `"hold"`, and clear the state dict. -/
def rstep (s : RState) : REvent → RState × Option RAct
  | REvent.press =>
    if s.active then (s, none)
    else ({ active := true, hold := false, timerArmed := true }, none)
  | REvent.timerFire =>
    if s.timerArmed then
      if s.active then ({ s with hold := true, timerArmed := false }, some RAct.hold)
      else ({ s with timerArmed := false }, none)
    else (s, none)
  | REvent.release =>
    (⟨false, false, false⟩, if s.active && !s.hold then some RAct.tap else none)

/-- Run the refresh machine over an event list, collecting fired actions. -/
def rrun (s : RState) : List REvent → RState × List RAct
  | [] => (s, [])
  | e :: rest =>
    let p := rstep s e
    let q := rrun p.1 rest
    (q.1, p.2.toList ++ q.2)

/-- The event sequence produced by one physical press at `pressT` and its
release at `relT`: the one-shot timer fires between them iff the hold
threshold elapses before the release cancels it. -/
def refreshEvents (pressT relT : ℚ) : List REvent :=
  if relT - pressT < REFRESH_HOLD_THRESHOLD_SEC then [REvent.press, REvent.release]
  else [REvent.press, REvent.timerFire, REvent.release]

/-- Actions fired for one press/release pair of the refresh key, starting
from the idle state (`_refresh_state = {}`). -/
def refreshRun (pressT relT : ℚ) : List RAct :=
  (rrun ⟨false, false, false⟩ (refreshEvents pressT relT)).2

/-- Final refresh state after one press/release pair. -/
def refreshFinal (pressT relT : ℚ) : RState :=
  (rrun ⟨false, false, false⟩ (refreshEvents pressT relT)).1

/-! ## Auto-repeat suppression (`_toggle_desktop_press` and friends)

`main.py` keeps, per action family, a set (or dict keyed) of active action
names; a press while the name is in the set is a no-op, release discards
the name. -/

/-- `_toggle_desktop_press(name)` (same gating as `_tab_press`,
`_volume_press`, `_maximize_press`, `_open_this_pc_press`): returns the new
active-name set and whether the bound action fired. -/
def gesturePress (st : List String) (name : String) : List String × Bool :=
  if name ∈ st then (st, false) else (name :: st, true)

/-- `_toggle_desktop_release(name)`: `discard` the name from the set. -/
def gestureRelease (st : List String) (name : String) : List String :=
  st.filter (fun m => m ≠ name)

/-- Press/release notifications keyed by action name. -/
inductive GEvent where
  | press (name : String)
  | release (name : String)

/-- Run the gesture gate over an event list, collecting the names whose
bound action fired (one list entry per actual firing). -/
def grun (st : List String) : List GEvent → List String × List String
  | [] => (st, [])
  | GEvent.press n :: rest =>
    let p := gesturePress st n
    let q := grun p.1 rest
    (q.1, (if p.2 then [n] else []) ++ q.2)
  | GEvent.release n :: rest => grun (gestureRelease st n) rest

/-! ## Repeat scheduler (`_volume_press` / `_tab_press` runner threads)

The runner fires once synchronously on press, then runs
`while not stop_evt.wait(delay): step(); delay = steady` — i.e. ticks at
offsets `initial, initial + steady, initial + 2*steady, ...` from the
press, each firing iff the cancel (release) time has not yet been reached
when its wait expires. -/

/-- Offsets (from the press) of the repeat ticks fired by the runner loop
before the cancellation at offset `c`.  `fuel` bounds the number of loop
iterations unfolded; any `fuel` larger than the number of fired ticks gives
the same list. -/
def runTicks (steady : ℚ) : ℕ → ℚ → ℚ → List ℚ
  | 0, _, _ => []
  | fuel + 1, t, c => if t < c then t :: runTicks steady fuel (t + steady) c else []

/-- Offsets of every invocation of the step function for a press at offset
0 cancelled at offset `c`: the synchronous immediate call plus the runner
ticks. -/
def invocationOffsets (fuel : ℕ) (initial steady c : ℚ) : List ℚ :=
  0 :: runTicks steady fuel initial c

/-! ## Helper lemmas -/

/-- A rectangle is always close to itself at the program's tolerance. -/
theorem rectClose_self (x : Rect) : rectClose x x WINDOW_POS_TOL_PX = true := by
  simp [rectClose, WINDOW_POS_TOL_PX]

/-- The scan loop, started at enumeration index `i`, returns the successor
(mod N) of the first matching candidate, or candidate 0 when none match. -/
theorem scanLoop_eq (cur : Rect) (all : List Rect) :
    ∀ (rest : List Rect) (i : ℕ),
      scanLoop all cur rest i =
        match firstMatchIdx cur rest with
        | some j => all.getD ((i + j + 1) % all.length) dRect
        | none => all.getD 0 dRect := by
  intro rest
  induction rest with
  | nil => intro i; rfl
  | cons tr rest ih =>
    intro i
    by_cases h : rectClose cur tr WINDOW_POS_TOL_PX = true
    · simp [scanLoop, firstMatchIdx, h]
    · simp only [Bool.not_eq_true] at h
      simp only [scanLoop, firstMatchIdx, h, Bool.false_eq_true, if_false]
      rw [ih (i + 1)]
      cases hf : firstMatchIdx cur rest with
      | none => simp
      | some j =>
        have h2 : i + 1 + j + 1 = i + (j + 1) + 1 := by omega
        simp [h2]

/-- The code's scan loop realizes the spec's candidate-selection rule. -/
theorem scanNext_eq_scanSpec (ts : List Rect) (cur : Rect) :
    scanNext ts cur = scanSpec ts cur := by
  unfold scanNext scanSpec
  rw [scanLoop_eq]
  cases h : firstMatchIdx cur ts with
  | none => simp
  | some j => simp

/-! ## Claim C9: rectangle closeness -/

/-- C9: `rectsClose(a,b,t)` holds iff each of the four edge-coordinate
absolute differences is at most `t`; it is symmetric in its two
rectangles; and at tolerance 0 it coincides with exact equality. -/
theorem rect_close_spec (x y : Rect) (tol : ℤ) :
    (rectClose x y tol = true ↔
      |x.l - y.l| ≤ tol ∧ |x.t - y.t| ≤ tol ∧ |x.r - y.r| ≤ tol ∧ |x.b - y.b| ≤ tol)
    ∧ rectClose x y tol = rectClose y x tol
    ∧ (rectClose x y 0 = true ↔ x = y) := by
  refine ⟨by simp [rectClose], ?_, ?_⟩
  · have habs : ∀ a b : ℤ, |a - b| = |b - a| := fun a b => abs_sub_comm a b
    exact decide_eq_decide.mpr
      (by rw [habs x.l y.l, habs x.t y.t, habs x.r y.r, habs x.b y.b])
  · simp only [rectClose, decide_eq_true_eq, abs_nonpos_iff, sub_eq_zero]
    constructor
    · rintro ⟨h1, h2, h3, h4⟩
      cases x; cases y
      simp_all
    · rintro rfl
      exact ⟨rfl, rfl, rfl, rfl⟩

/-! ## Claim C8: horizontal target rectangles -/

/-- C8: for each side, the horizontal cycle target spans the full work-area
height, has width `round(workAreaWidth * ratio)`, and is flush with the
work area's left (side=left) or right (side=right) edge. -/
theorem horizontal_target_spec (wa : Rect) (ratio : Frac) :
    (makeTargetRect wa ratio Side.left).t = wa.t
    ∧ (makeTargetRect wa ratio Side.left).b = wa.b
    ∧ (makeTargetRect wa ratio Side.left).r - (makeTargetRect wa ratio Side.left).l
        = roundScaled (wa.r - wa.l) ratio
    ∧ (makeTargetRect wa ratio Side.left).l = wa.l
    ∧ (makeTargetRect wa ratio Side.right).t = wa.t
    ∧ (makeTargetRect wa ratio Side.right).b = wa.b
    ∧ (makeTargetRect wa ratio Side.right).r - (makeTargetRect wa ratio Side.right).l
        = roundScaled (wa.r - wa.l) ratio
    ∧ (makeTargetRect wa ratio Side.right).r = wa.r := by
  refine ⟨rfl, ?_, ?_, rfl, rfl, ?_, ?_, rfl⟩ <;> simp [makeTargetRect]

/-! ## Claim C2: cycle progression for non-maximized windows -/

/-- C2 counterexample: on a 10-pixel-wide work area the three candidate
rectangles lie within the 2-pixel tolerance of each other, so a window
starting at the rectangle for ratio `r0` does not return to it after three
cycles (it reaches the `r1` rectangle and stays there). -/
theorem three_cycle_fails_on_narrow_work_area :
    scanNext (widthTargets ⟨0, 0, 10, 1080⟩ Side.left)
        (scanNext (widthTargets ⟨0, 0, 10, 1080⟩ Side.left)
          (scanNext (widthTargets ⟨0, 0, 10, 1080⟩ Side.left)
            ((widthTargets ⟨0, 0, 10, 1080⟩ Side.left).getD 0 dRect)))
      ≠ (widthTargets ⟨0, 0, 10, 1080⟩ Side.left).getD 0 dRect := by
  decide

/-- C2 (amended): the applied target is the successor (mod N) of the first
candidate the current rectangle is within tolerance of, or candidate 0 when
none matches; and — provided later candidates are not within tolerance of
earlier ones — a window at the first of three candidates returns to it
after three cycles. -/
theorem scan_rule_and_three_cycle (ts : List Rect) (cur x y z : Rect)
    (hyx : rectClose y x WINDOW_POS_TOL_PX = false)
    (hzx : rectClose z x WINDOW_POS_TOL_PX = false)
    (hzy : rectClose z y WINDOW_POS_TOL_PX = false) :
    scanNext ts cur = scanSpec ts cur
    ∧ scanNext [x, y, z] (scanNext [x, y, z] (scanNext [x, y, z] x)) = x := by
  refine ⟨scanNext_eq_scanSpec ts cur, ?_⟩
  have s1 : scanNext [x, y, z] x = y := by
    simp [scanNext, scanLoop, rectClose_self]
  have s2 : scanNext [x, y, z] y = z := by
    simp [scanNext, scanLoop, rectClose_self, hyx]
  have s3 : scanNext [x, y, z] z = x := by
    simp [scanNext, scanLoop, rectClose_self, hzx, hzy]
  rw [s1, s2, s3]

/-- C2 witness: on a 1920x1080 work area the three left-side candidates are
pairwise farther apart than the tolerance, and three cycles starting from
the first candidate return to it. -/
theorem scan_rule_and_three_cycle_witness :
    rectClose (makeTargetRect ⟨0, 0, 1920, 1080⟩ ⟨3372, 10000⟩ Side.left)
        (makeTargetRect ⟨0, 0, 1920, 1080⟩ ⟨5040, 10000⟩ Side.left) WINDOW_POS_TOL_PX = false
    ∧ (scanNext (widthTargets ⟨0, 0, 1920, 1080⟩ Side.left)
          (makeTargetRect ⟨0, 0, 1920, 1080⟩ ⟨5040, 10000⟩ Side.left)
        = scanSpec (widthTargets ⟨0, 0, 1920, 1080⟩ Side.left)
            (makeTargetRect ⟨0, 0, 1920, 1080⟩ ⟨5040, 10000⟩ Side.left))
    ∧ scanNext
        [makeTargetRect ⟨0, 0, 1920, 1080⟩ ⟨5040, 10000⟩ Side.left,
         makeTargetRect ⟨0, 0, 1920, 1080⟩ ⟨3372, 10000⟩ Side.left,
         makeTargetRect ⟨0, 0, 1920, 1080⟩ ⟨6707, 10000⟩ Side.left]
        (scanNext
          [makeTargetRect ⟨0, 0, 1920, 1080⟩ ⟨5040, 10000⟩ Side.left,
           makeTargetRect ⟨0, 0, 1920, 1080⟩ ⟨3372, 10000⟩ Side.left,
           makeTargetRect ⟨0, 0, 1920, 1080⟩ ⟨6707, 10000⟩ Side.left]
          (scanNext
            [makeTargetRect ⟨0, 0, 1920, 1080⟩ ⟨5040, 10000⟩ Side.left,
             makeTargetRect ⟨0, 0, 1920, 1080⟩ ⟨3372, 10000⟩ Side.left,
             makeTargetRect ⟨0, 0, 1920, 1080⟩ ⟨6707, 10000⟩ Side.left]
            (makeTargetRect ⟨0, 0, 1920, 1080⟩ ⟨5040, 10000⟩ Side.left)))
      = makeTargetRect ⟨0, 0, 1920, 1080⟩ ⟨5040, 10000⟩ Side.left := by
  have h := scan_rule_and_three_cycle
    (widthTargets ⟨0, 0, 1920, 1080⟩ Side.left)
    (makeTargetRect ⟨0, 0, 1920, 1080⟩ ⟨5040, 10000⟩ Side.left)
    (makeTargetRect ⟨0, 0, 1920, 1080⟩ ⟨5040, 10000⟩ Side.left)
    (makeTargetRect ⟨0, 0, 1920, 1080⟩ ⟨3372, 10000⟩ Side.left)
    (makeTargetRect ⟨0, 0, 1920, 1080⟩ ⟨6707, 10000⟩ Side.left)
    (by decide) (by decide) (by decide)
  exact ⟨by decide, h.1, h.2⟩

/-! ## Claim C1: cycling a maximized window -/

/-- `acceptedStep` never touches the debounce timestamp. -/
theorem acceptedStep_lastTrigger (d : Dir) (w : TilingWorld) :
    (acceptedStep d w).lastTrigger = w.lastTrigger := by
  cases hw : w.fg with
  | none => simp [acceptedStep, hw]
  | some win =>
    simp only [acceptedStep, hw]
    split <;> rfl

/-- Unfolding equation for `cycleStep`. -/
theorem cycleStep_def (d : Dir) (now : ℚ) (w : TilingWorld) :
    cycleStep d now w =
      if now - w.lastTrigger < WINDOW_CYCLE_DEBOUNCE_SEC then w
      else acceptedStep d { w with lastTrigger := now } := rfl

/-- C1 counterexample: a maximized window whose post-restore rectangle
coincides with vertical candidate 0 advances to candidate 1 on a vertical
cycle invocation, instead of landing on candidate 0 as the claim states. -/
theorem vertical_cycle_from_maximized_advances :
    (cycleStep Dir.top 1
        { lastTrigger := 0,
          fg := some { restricted := false, maximized := true,
                       rect := ⟨0, 0, 600, 544⟩, workArea := ⟨0, 0, 1920, 1080⟩ } }).fg
      = some { restricted := false, maximized := false,
               rect := ⟨0, 0, 600, 364⟩, workArea := ⟨0, 0, 1920, 1080⟩ }
    ∧ (⟨0, 0, 600, 364⟩ : Rect)
        ≠ (makeVerticalTargetRects ⟨0, 0, 1920, 1080⟩ WINDOW_WIDTHS Anchor.top
            ⟨0, 0, 600, 544⟩).getD 0 dRect := by
  constructor
  · rw [cycleStep_def, if_neg (by norm_num [WINDOW_CYCLE_DEBOUNCE_SEC])]
    decide
  · decide

/-- C1 (amended): with the debounce passed and an unrestricted foreground
window that is maximized, a horizontal cycle invocation restores it and
sets its rectangle directly to candidate 0; a vertical cycle invocation
restores it and then runs the normal candidate scan on the post-restore
rectangle (so it can advance past candidate 0). -/
theorem maximized_cycle_behavior (w : TilingWorld) (win : Window) (now : ℚ)
    (hdb : ¬ now - w.lastTrigger < WINDOW_CYCLE_DEBOUNCE_SEC)
    (hfg : w.fg = some win) (hres : win.restricted = false)
    (hmax : win.maximized = true) :
    (cycleStep Dir.left now w).fg
      = some { win with
               maximized := false,
               rect := (widthTargets win.workArea Side.left).getD 0 dRect }
    ∧ (cycleStep Dir.right now w).fg
      = some { win with
               maximized := false,
               rect := (widthTargets win.workArea Side.right).getD 0 dRect }
    ∧ (cycleStep Dir.top now w).fg
      = some { win with
               maximized := false,
               rect := scanNext
                 (makeVerticalTargetRects win.workArea WINDOW_WIDTHS Anchor.top win.rect)
                 win.rect }
    ∧ (cycleStep Dir.bottom now w).fg
      = some { win with
               maximized := false,
               rect := scanNext
                 (makeVerticalTargetRects win.workArea WINDOW_WIDTHS Anchor.bottom win.rect)
                 win.rect } := by
  refine ⟨?_, ?_, ?_, ?_⟩ <;>
    · rw [cycleStep_def, if_neg hdb]
      simp [acceptedStep, hfg, hres, cycleWidthsWindow, cycleHeightsWindow, hmax]

/-- C1 witness: a concrete maximized window on a 1920x1080 work area,
cycled once in each of the four directions. -/
theorem maximized_cycle_behavior_witness :
    (cycleStep Dir.left 5
        { lastTrigger := 0,
          fg := some { restricted := false, maximized := true,
                       rect := ⟨10, 10, 800, 600⟩, workArea := ⟨0, 0, 1920, 1080⟩ } }).fg
      = some { restricted := false, maximized := false,
               rect := (widthTargets ⟨0, 0, 1920, 1080⟩ Side.left).getD 0 dRect,
               workArea := ⟨0, 0, 1920, 1080⟩ }
    ∧ (cycleStep Dir.top 5
        { lastTrigger := 0,
          fg := some { restricted := false, maximized := true,
                       rect := ⟨10, 10, 800, 600⟩, workArea := ⟨0, 0, 1920, 1080⟩ } }).fg
      = some { restricted := false, maximized := false,
               rect := scanNext
                 (makeVerticalTargetRects ⟨0, 0, 1920, 1080⟩ WINDOW_WIDTHS Anchor.top
                   ⟨10, 10, 800, 600⟩)
                 ⟨10, 10, 800, 600⟩,
               workArea := ⟨0, 0, 1920, 1080⟩ } := by
  have h := maximized_cycle_behavior
    { lastTrigger := 0,
      fg := some { restricted := false, maximized := true,
                   rect := ⟨10, 10, 800, 600⟩, workArea := ⟨0, 0, 1920, 1080⟩ } }
    { restricted := false, maximized := true,
      rect := ⟨10, 10, 800, 600⟩, workArea := ⟨0, 0, 1920, 1080⟩ }
    5 (by norm_num [WINDOW_CYCLE_DEBOUNCE_SEC]) rfl rfl rfl
  exact ⟨h.1, h.2.2.1⟩

/-! ## Claim C3: the debounce window -/

/-- C3: after an accepted tiling-cycle invocation at `t1`, the debounce
timestamp is `t1`; a second invocation (any direction) less than the
debounce window later changes nothing at all; a second invocation at least
the debounce window later runs the full accepted cycle body. -/
theorem debounce_drops_and_spaced_accepts (w : TilingWorld) (d1 d2 : Dir) (t1 t2 : ℚ)
    (h1 : ¬ t1 - w.lastTrigger < WINDOW_CYCLE_DEBOUNCE_SEC) :
    (cycleStep d1 t1 w).lastTrigger = t1
    ∧ (t2 - t1 < WINDOW_CYCLE_DEBOUNCE_SEC →
        cycleStep d2 t2 (cycleStep d1 t1 w) = cycleStep d1 t1 w)
    ∧ (¬ t2 - t1 < WINDOW_CYCLE_DEBOUNCE_SEC →
        cycleStep d2 t2 (cycleStep d1 t1 w)
          = acceptedStep d2 { cycleStep d1 t1 w with lastTrigger := t2 }) := by
  have hlt : (cycleStep d1 t1 w).lastTrigger = t1 := by
    rw [cycleStep_def, if_neg h1, acceptedStep_lastTrigger]
  refine ⟨hlt, ?_, ?_⟩
  · intro h2
    rw [cycleStep_def d2, hlt, if_pos h2]
  · intro h2
    rw [cycleStep_def d2, hlt, if_neg h2]

/-- C3 witness: invocations at times 0.2, then 0.25 (dropped), then 0.35
(accepted), from a fresh world. -/
theorem debounce_witness :
    (cycleStep Dir.left (2/10) { lastTrigger := 0, fg := none }).lastTrigger = 2/10
    ∧ (cycleStep Dir.right (25/100)
          (cycleStep Dir.left (2/10) { lastTrigger := 0, fg := none })
        = cycleStep Dir.left (2/10) { lastTrigger := 0, fg := none })
    ∧ (cycleStep Dir.right (35/100)
          (cycleStep Dir.left (2/10) { lastTrigger := 0, fg := none })
        = acceptedStep Dir.right
            { cycleStep Dir.left (2/10) { lastTrigger := 0, fg := none } with
                lastTrigger := 35/100 }) := by
  have h := debounce_drops_and_spaced_accepts
    { lastTrigger := 0, fg := none } Dir.left Dir.right (2/10) (25/100)
    (by norm_num [WINDOW_CYCLE_DEBOUNCE_SEC])
  have h35 := debounce_drops_and_spaced_accepts
    { lastTrigger := 0, fg := none } Dir.left Dir.right (2/10) (35/100)
    (by norm_num [WINDOW_CYCLE_DEBOUNCE_SEC])
  exact ⟨h.1, h.2.1 (by norm_num [WINDOW_CYCLE_DEBOUNCE_SEC]),
    h35.2.2 (by norm_num [WINDOW_CYCLE_DEBOUNCE_SEC])⟩

/-! ## Claim C10: no-op invocations still consume the debounce window -/

/-- C10: an invocation that passes the debounce check but then no-ops
(no foreground window, or a restricted shell-class window) still updates
the debounce timestamp, so a subsequent invocation within the debounce
window is dropped. -/
theorem noop_invocation_consumes_debounce (w : TilingWorld) (d1 d2 : Dir) (t1 t2 : ℚ)
    (h1 : ¬ t1 - w.lastTrigger < WINDOW_CYCLE_DEBOUNCE_SEC)
    (hfg : w.fg = none ∨ ∃ win, w.fg = some win ∧ win.restricted = true)
    (h2 : t2 - t1 < WINDOW_CYCLE_DEBOUNCE_SEC) :
    cycleStep d1 t1 w = { w with lastTrigger := t1 }
    ∧ cycleStep d2 t2 (cycleStep d1 t1 w) = cycleStep d1 t1 w := by
  have hstep : cycleStep d1 t1 w = { w with lastTrigger := t1 } := by
    rw [cycleStep_def, if_neg h1]
    rcases hfg with hnone | ⟨win, hwin, hrtrue⟩
    · simp [acceptedStep, hnone]
    · simp [acceptedStep, hwin, hrtrue]
  refine ⟨hstep, ?_⟩
  rw [cycleStep_def d2, hstep, if_pos h2]

/-- C10 witness: a restricted (taskbar-class) foreground window; the first
invocation changes only the timestamp and the second, 50ms later, is
dropped. -/
theorem noop_invocation_consumes_debounce_witness :
    cycleStep Dir.bottom 1
        { lastTrigger := 0,
          fg := some { restricted := true, maximized := false,
                       rect := ⟨0, 0, 100, 100⟩, workArea := ⟨0, 0, 1920, 1080⟩ } }
      = { lastTrigger := 1,
          fg := some { restricted := true, maximized := false,
                       rect := ⟨0, 0, 100, 100⟩, workArea := ⟨0, 0, 1920, 1080⟩ } }
    ∧ cycleStep Dir.left (105/100)
        (cycleStep Dir.bottom 1
          { lastTrigger := 0,
            fg := some { restricted := true, maximized := false,
                         rect := ⟨0, 0, 100, 100⟩, workArea := ⟨0, 0, 1920, 1080⟩ } })
      = cycleStep Dir.bottom 1
          { lastTrigger := 0,
            fg := some { restricted := true, maximized := false,
                         rect := ⟨0, 0, 100, 100⟩, workArea := ⟨0, 0, 1920, 1080⟩ } } := by
  exact noop_invocation_consumes_debounce
    { lastTrigger := 0,
      fg := some { restricted := true, maximized := false,
                   rect := ⟨0, 0, 100, 100⟩, workArea := ⟨0, 0, 1920, 1080⟩ } }
    Dir.bottom Dir.left 1 (105/100)
    (by norm_num [WINDOW_CYCLE_DEBOUNCE_SEC])
    (Or.inr ⟨_, rfl, rfl⟩)
    (by norm_num [WINDOW_CYCLE_DEBOUNCE_SEC])

/-! ## Claim C4: tap/hold disambiguation -/

/-- C4: for a press/release pair whose release eventually arrives, exactly
one of tap/hold fires: the tap callback iff the release beats the hold
threshold, the hold callback otherwise; afterwards the state is cleared
and the timer disarmed. -/
theorem tap_hold_exactly_one (pressT relT : ℚ) :
    (relT - pressT < REFRESH_HOLD_THRESHOLD_SEC → refreshRun pressT relT = [RAct.tap])
    ∧ (¬ relT - pressT < REFRESH_HOLD_THRESHOLD_SEC → refreshRun pressT relT = [RAct.hold])
    ∧ (refreshRun pressT relT = [RAct.tap] ∨ refreshRun pressT relT = [RAct.hold])
    ∧ refreshFinal pressT relT = ⟨false, false, false⟩ := by
  by_cases h : relT - pressT < REFRESH_HOLD_THRESHOLD_SEC
  · have hrun : refreshRun pressT relT = [RAct.tap] := by
      unfold refreshRun refreshEvents
      rw [if_pos h]
      decide
    have hfin : refreshFinal pressT relT = ⟨false, false, false⟩ := by
      unfold refreshFinal refreshEvents
      rw [if_pos h]
      decide
    exact ⟨fun _ => hrun, fun h2 => absurd h h2, Or.inl hrun, hfin⟩
  · have hrun : refreshRun pressT relT = [RAct.hold] := by
      unfold refreshRun refreshEvents
      rw [if_neg h]
      decide
    have hfin : refreshFinal pressT relT = ⟨false, false, false⟩ := by
      unfold refreshFinal refreshEvents
      rw [if_neg h]
      decide
    exact ⟨fun h2 => absurd h2 h, fun _ => hrun, Or.inr hrun, hfin⟩

/-- C4 witness: release after 100ms fires exactly the tap; release after
500ms (timer fired at 400ms) fires exactly the hold. -/
theorem tap_hold_exactly_one_witness :
    refreshRun 0 (1/10) = [RAct.tap] ∧ refreshRun 0 (1/2) = [RAct.hold] :=
  ⟨(tap_hold_exactly_one 0 (1/10)).1 (by norm_num [REFRESH_HOLD_THRESHOLD_SEC]),
   (tap_hold_exactly_one 0 (1/2)).2.1 (by norm_num [REFRESH_HOLD_THRESHOLD_SEC])⟩

/-! ## Claim C5: auto-repeat suppression -/

/-- C5: from a state where action `n` is inactive, the event sequence
press, press, press, release for `n` fires the bound action exactly once,
leaves `n` inactive, and a release of a different action name never
removes `n` from the active set. -/
theorem auto_repeat_suppression (st : List String) (n m : String)
    (hn : n ∉ st) (hm : m ≠ n) :
    (grun st [GEvent.press n, GEvent.press n, GEvent.press n, GEvent.release n]).2 = [n]
    ∧ n ∉ (grun st [GEvent.press n, GEvent.press n, GEvent.press n, GEvent.release n]).1
    ∧ ∀ s : List String, n ∈ s → n ∈ gestureRelease s m := by
  refine ⟨?_, ?_, ?_⟩
  · simp [grun, gesturePress, gestureRelease, hn]
  · simp [grun, gesturePress, gestureRelease, hn, List.mem_filter]
  · intro s hs
    simp [gestureRelease, List.mem_filter, hs]
    exact fun hcontra => hm hcontra.symm

/-- C5 witness: three presses and one release of the desktop-toggle action
from the empty active set, with an unrelated action name. -/
theorem auto_repeat_suppression_witness :
    (grun [] [GEvent.press "f22", GEvent.press "f22", GEvent.press "f22",
              GEvent.release "f22"]).2 = ["f22"]
    ∧ "f22" ∉ (grun [] [GEvent.press "f22", GEvent.press "f22", GEvent.press "f22",
              GEvent.release "f22"]).1
    ∧ ∀ s : List String, "f22" ∈ s → "f22" ∈ gestureRelease s "f21" :=
  auto_repeat_suppression [] "f22" "f21" (by simp) (by decide)

/-! ## Claim C6: repeat scheduling -/

/-- Once the tick time has reached the cancel time, no tick ever fires. -/
theorem runTicks_stopped (steady : ℚ) (fuel : ℕ) (t c : ℚ) (h : ¬ t < c) :
    runTicks steady fuel t c = [] := by
  cases fuel <;> simp [runTicks, h]

/-- C6: the step function runs once immediately (offset 0 heads the
invocation list); the runner ticks are exactly the offsets
`initial + k * steady` that precede the cancel time (for any sufficient
fuel bound); and with the spec's numbers — initial delay 350ms, steady
interval 120ms, cancel at 400ms — there are exactly 2 invocations:
the immediate one and the one after the initial delay. -/
theorem repeat_scheduler_spec (initial steady c x : ℚ) (fuel : ℕ) (hs : 0 < steady) :
    (invocationOffsets fuel initial steady c).getD 0 1 = 0
    ∧ (x ∈ runTicks steady fuel initial c ↔
        ∃ k : ℕ, k < fuel ∧ x = initial + (k : ℚ) * steady ∧ x < c)
    ∧ ∀ f : ℕ, invocationOffsets (f + 1) (35/100) (12/100) (40/100) = [0, 35/100] := by
  refine ⟨rfl, ?_, ?_⟩
  · induction fuel generalizing initial with
    | zero => simp [runTicks]
    | succ fuel ih =>
      by_cases h : initial < c
      · simp only [runTicks, if_pos h, List.mem_cons, ih (initial + steady)]
        constructor
        · rintro (rfl | ⟨k, hk, rfl, hxc⟩)
          · exact ⟨0, by omega, by push_cast; ring, h⟩
          · exact ⟨k + 1, by omega, by push_cast; ring, hxc⟩
        · rintro ⟨k, hk, rfl, hxc⟩
          cases k with
          | zero => left; push_cast; ring
          | succ k =>
            right
            exact ⟨k, by omega, by push_cast; ring, by push_cast at hxc ⊢; linarith⟩
      · rw [runTicks_stopped steady _ _ _ h]
        simp only [List.not_mem_nil, false_iff, not_exists]
        rintro k ⟨hk, rfl, hxc⟩
        have hk0 : (0 : ℚ) ≤ (k : ℚ) * steady :=
          mul_nonneg (by positivity) (le_of_lt hs)
        have : initial < c := lt_of_le_of_lt (by linarith) hxc
        exact h this
  · intro f
    unfold invocationOffsets
    rw [show runTicks (12/100) (f + 1) (35/100) (40/100)
          = (35 : ℚ)/100 :: runTicks (12/100) f (35/100 + 12/100) (40/100) from
        by rw [runTicks, if_pos (by norm_num)]]
    rw [show (35 : ℚ)/100 + 12/100 = 47/100 from by norm_num]
    rw [runTicks_stopped (12/100) f (47/100) (40/100) (by norm_num)]

/-- C6 witness: with initial delay 350ms, interval 120ms, cancel at 400ms,
the invocation offsets are exactly `[0, 0.35]` — two invocations — and the
tick at 350ms is among the runner ticks. -/
theorem repeat_scheduler_spec_witness :
    invocationOffsets 3 (35/100) (12/100) (40/100) = [0, 35/100]
    ∧ (35 : ℚ)/100 ∈ runTicks (12/100) 3 (35/100) (40/100) :=
  ⟨(repeat_scheduler_spec (35/100) (12/100) (40/100) 0 3 (by norm_num)).2.2 2,
   ((repeat_scheduler_spec (35/100) (12/100) (40/100) (35/100) 3
      (by norm_num)).2.1).mpr ⟨0, by norm_num, by norm_num, by norm_num⟩⟩

/-! ## Claim C7: vertical target rectangles -/

/-- `getD` of a mapped list, inside bounds. -/
theorem getD_map {α β : Type} (f : α → β) (d : β) (e : α) :
    ∀ (l : List α) (i : ℕ), i < l.length → (l.map f).getD i d = f (l.getD i e)
  | [], i, h => absurd h (by simp)
  | a :: l, 0, _ => rfl
  | a :: l, i + 1, h => getD_map f d e l i (by simpa using h)

/-- Rounding `n / d` half to even never exceeds an integer bound on the
fraction: if `n ≤ W * d` and `d > 0` then `roundHalfEven n d ≤ W`. -/
theorem roundHalfEven_le (n d W : ℤ) (hd : 0 < d) (hn : n ≤ W * d) :
    roundHalfEven n d ≤ W := by
  simp only [roundHalfEven]
  have hrem : n - n / d * d = n % d := by
    rw [Int.emod_def]
    ring
  have hrem0 : 0 ≤ n - n / d * d := hrem ▸ Int.emod_nonneg n (ne_of_gt hd)
  have hremd : n - n / d * d < d := hrem ▸ Int.emod_lt_of_pos n hd
  have hfW : n / d ≤ W := by
    have h1 : n / d * d ≤ W * d := by omega
    exact le_of_mul_le_mul_right h1 hd
  have hf1W : 1 ≤ n - n / d * d → n / d + 1 ≤ W := by
    intro h1
    have h2 : n / d * d < W * d := by omega
    have := lt_of_mul_lt_mul_right h2 (le_of_lt hd)
    omega
  split_ifs with h1 h2 h3
  · exact hfW
  · exact hf1W (by omega)
  · exact hfW
  · exact hf1W (by omega)

/-- C7 clamping part: `_clamp_width_to_work_area` yields a horizontal span
no wider than the work area, not past its right edge, and not starting
left of its left edge. -/
theorem clamp_width_bounds (rect wa : Rect) :
    (clampWidthToWorkArea rect wa).r - (clampWidthToWorkArea rect wa).l
        ≤ wa.r - wa.l
    ∧ (clampWidthToWorkArea rect wa).r ≤ wa.r
    ∧ wa.l ≤ (clampWidthToWorkArea rect wa).l := by
  simp only [clampWidthToWorkArea, max_def]
  split_ifs <;> constructor <;> omega

/-- C7: every vertical-cycle candidate rectangle has height
`round(workAreaHeight * ratio)` (for ratios at most 1 and a well-formed
work area), anchored to the chosen top or bottom edge, with its horizontal
span inherited from the clamped current rectangle, which never exceeds the
work-area width, never passes the work area's right edge and never starts
left of its left edge. -/
theorem vertical_target_spec (wa cur : Rect) (anchor : Anchor) (ratios : List Frac)
    (i : ℕ) (hi : i < ratios.length) (hwa : wa.t ≤ wa.b)
    (hpos : 0 < (ratios.getD i ⟨0, 1⟩).den)
    (hle : (ratios.getD i ⟨0, 1⟩).num ≤ (ratios.getD i ⟨0, 1⟩).den) :
    ((makeVerticalTargetRects wa ratios anchor cur).getD i dRect).l
        = (clampWidthToWorkArea cur wa).l
    ∧ ((makeVerticalTargetRects wa ratios anchor cur).getD i dRect).r
        = (clampWidthToWorkArea cur wa).r
    ∧ ((makeVerticalTargetRects wa ratios anchor cur).getD i dRect).b
          - ((makeVerticalTargetRects wa ratios anchor cur).getD i dRect).t
        = roundScaled (wa.b - wa.t) (ratios.getD i ⟨0, 1⟩)
    ∧ (anchor = Anchor.top →
        ((makeVerticalTargetRects wa ratios anchor cur).getD i dRect).t = wa.t)
    ∧ (anchor = Anchor.bottom →
        ((makeVerticalTargetRects wa ratios anchor cur).getD i dRect).b = wa.b)
    ∧ (clampWidthToWorkArea cur wa).r - (clampWidthToWorkArea cur wa).l
        ≤ wa.r - wa.l
    ∧ (clampWidthToWorkArea cur wa).r ≤ wa.r
    ∧ wa.l ≤ (clampWidthToWorkArea cur wa).l := by
  have hmap : (makeVerticalTargetRects wa ratios anchor cur).getD i dRect
      = verticalTarget wa anchor (clampWidthToWorkArea cur wa) (ratios.getD i ⟨0, 1⟩) := by
    unfold makeVerticalTargetRects
    exact getD_map (verticalTarget wa anchor (clampWidthToWorkArea cur wa))
      dRect ⟨0, 1⟩ ratios i hi
  have hmin : min (roundScaled (wa.b - wa.t) (ratios.getD i ⟨0, 1⟩)) (wa.b - wa.t)
      = roundScaled (wa.b - wa.t) (ratios.getD i ⟨0, 1⟩) := by
    refine min_eq_left ?_
    unfold roundScaled
    refine roundHalfEven_le _ _ _ hpos ?_
    have hb : (0 : ℤ) ≤ wa.b - wa.t := by omega
    exact mul_le_mul_of_nonneg_left hle hb
  rw [hmap]
  have hcb := clamp_width_bounds cur wa
  cases anchor with
  | top =>
    dsimp only [verticalTarget]
    rw [hmin]
    exact ⟨rfl, rfl, by ring, fun _ => rfl, fun hcontra => absurd hcontra (by decide),
      hcb.1, hcb.2.1, hcb.2.2⟩
  | bottom =>
    dsimp only [verticalTarget]
    rw [hmin]
    exact ⟨rfl, rfl, by ring, fun hcontra => absurd hcontra (by decide), fun _ => rfl,
      hcb.1, hcb.2.1, hcb.2.2⟩

/-- C7 witness: the second ratio (0.3372) on a 1920x1080 work area with a
current rectangle hanging past the right work-area edge. -/
theorem vertical_target_spec_witness :
    ((makeVerticalTargetRects ⟨0, 0, 1920, 1080⟩ WINDOW_WIDTHS Anchor.top
        ⟨1800, 5, 2000, 900⟩).getD 1 dRect).l
      = (clampWidthToWorkArea ⟨1800, 5, 2000, 900⟩ ⟨0, 0, 1920, 1080⟩).l
    ∧ ((makeVerticalTargetRects ⟨0, 0, 1920, 1080⟩ WINDOW_WIDTHS Anchor.top
        ⟨1800, 5, 2000, 900⟩).getD 1 dRect).b
        - ((makeVerticalTargetRects ⟨0, 0, 1920, 1080⟩ WINDOW_WIDTHS Anchor.top
            ⟨1800, 5, 2000, 900⟩).getD 1 dRect).t
      = roundScaled 1080 ⟨3372, 10000⟩
    ∧ (clampWidthToWorkArea ⟨1800, 5, 2000, 900⟩ ⟨0, 0, 1920, 1080⟩).r ≤ 1920 := by
  have h := vertical_target_spec ⟨0, 0, 1920, 1080⟩ ⟨1800, 5, 2000, 900⟩
    Anchor.top WINDOW_WIDTHS 1 (by decide) (by decide) (by decide) (by decide)
  exact ⟨h.1, h.2.2.1, h.2.2.2.2.2.2.1⟩

end MMODeck
